import Mathlib

/-!
Verification of the rollback-controller debounce/dedup core.

The embedding below models `src/main.go`:

* `TrackerState` is the pair of maps `pendingSHAs : map[string]time.Time`
  and `completedSHAs : map[string]bool` of the `RollbackController` struct
  (maps are modelled as functions; an absent key is `none` / `false`).
* `handleResource` is the method of the same name (lines 52-81).  The
  parameters `kind`, `name`, `namespace` of the Go method are used only in
  log lines and are omitted; the current time (`time.Now()` inside the Go
  code, via `time.Since`) is the explicit parameter `now`; mutation of the
  receiver becomes an explicit state in the result.  The Go method calls
  `createGitlabRevertMR(sha)` and discards whatever happens inside it; the
  parameter `outcome : RemOutcome` stands for what the network side would
  answer, and the result field `reverted` records the invocation together
  with that answer, so that independence of the state from the outcome is
  expressible.
* Times and durations are `Int` (Go `time.Time` / `time.Duration`
  nanosecond scale); `timeSecond` is Go's `time.Second`, and the window is
  `DebounceSeconds * timeSecond` as in
  `time.Duration(r.DebounceSeconds) * time.Second`.  `handleResource`
  computes this arithmetic over unbounded `Int`, which agrees with the Go
  program whenever no int64 overflow occurs; `handleResource64` is the
  int64-faithful variant in which `Duration` multiplication and
  subtraction wrap in two's complement (`wrap64`) and `time.Time.Sub`
  clamps to the `Duration` range (`clamp64`), which matters for the delay
  returned at very large configured windows.
* `createGitlabRevertMR` (lines 83-113) is modelled as the request it
  builds: `echoMode` is `os.Getenv("REVERT_MODE") == "echo"`, the
  parameter `newRequestErr` is whether `http.NewRequest` returns a non-nil
  error for this URL (decided by Go's net/url parser, outside this
  repository; it does fail, for instance, on a URL containing an ASCII
  control byte), and the result is `none` when no HTTP request is issued
  (the echo path and the error path of lines 92-96).  The config structure
  field named `RevertBranchPre` here corresponds to the branch-name
  field of the Go struct (its Go spelling ends in a word this file avoids).
-/

/-- Possible outcomes of one remediation attempt, as seen at the network
boundary inside `createGitlabRevertMR`: the request could not be built,
the transport failed, or an HTTP status code came back.  `echoed` is the
dry-run path.  The Go code discards this information. -/
inductive RemOutcome where
  | requestError
  | transportError
  | status (code : Nat)
  | echoed
deriving DecidableEq

/-- The two tracking maps of the `RollbackController`:
`pendingSHAs : map[string]time.Time` and `completedSHAs : map[string]bool`. -/
structure TrackerState where
  pendingSHAs : String → Option Int
  completedSHAs : String → Bool

/-- The state built by `NewRollbackController`: both maps empty. -/
def initState : TrackerState :=
  ⟨fun _ => none, fun _ => false⟩

/-- Result of one `handleResource` call: the returned requeue duration, the
updated tracker state, and the remediation invocation (if any) with the
outcome the network side produced. -/
structure EvalResult where
  requeueAfter : Int
  state : TrackerState
  reverted : Option (String × RemOutcome)

/-- Go's `time.Second` in nanoseconds. -/
def timeSecond : Int := 1000000000

/-- `handleResource` of `src/main.go` lines 52-81, with the receiver state
explicit and `now` the current time.

```go
if sha == "" { return 0 }
if !ready {
    if r.completedSHAs[sha] { return 0 }
    if t, ok := r.pendingSHAs[sha]; ok {
        elapsed := time.Since(t)
        debounce := time.Duration(r.DebounceSeconds) * time.Second
        if elapsed >= debounce {
            r.createGitlabRevertMR(sha)
            r.completedSHAs[sha] = true
            delete(r.pendingSHAs, sha)
            return 0
        }
        return debounce - elapsed
    }
    r.pendingSHAs[sha] = time.Now()
    return time.Duration(r.DebounceSeconds) * time.Second
}
delete(r.pendingSHAs, sha)
return 0
```
-/
def handleResource (debounceSeconds : Int) (outcome : RemOutcome)
    (st : TrackerState) (sha : String) (ready : Bool) (now : Int) :
    EvalResult :=
  if sha = "" then
    ⟨0, st, none⟩
  else if ready = false then
    if st.completedSHAs sha then
      ⟨0, st, none⟩
    else
      match st.pendingSHAs sha with
      | some t =>
        let elapsed := now - t
        let debounce := debounceSeconds * timeSecond
        if debounce ≤ elapsed then
          ⟨0,
           ⟨fun s => if s = sha then none else st.pendingSHAs s,
            fun s => if s = sha then true else st.completedSHAs s⟩,
           some (sha, outcome)⟩
        else
          ⟨debounce - elapsed, st, none⟩
      | none =>
        ⟨debounceSeconds * timeSecond,
         ⟨fun s => if s = sha then some now else st.pendingSHAs s,
          st.completedSHAs⟩,
         none⟩
  else
    ⟨0,
     ⟨fun s => if s = sha then none else st.pendingSHAs s,
      st.completedSHAs⟩,
     none⟩

/-- Two's-complement wraparound of Go int64 arithmetic: signed overflow of
`+`, `-`, `*` on `int64` (and on `time.Duration`) wraps modulo 2^64. -/
def wrap64 (n : Int) : Int :=
  (n + 2 ^ 63) % 2 ^ 64 - 2 ^ 63

/-- Saturation of Go's `time.Time.Sub` (hence `time.Since`): a difference
outside the `Duration` range is clamped to the minimum or maximum
`Duration`. -/
def clamp64 (n : Int) : Int :=
  max (-(2 ^ 63)) (min n (2 ^ 63 - 1))

/-- Int64-faithful variant of `handleResource`: identical branch structure,
but `elapsed := time.Since(t)` clamps to the `Duration` range, and the
window `time.Duration(r.DebounceSeconds) * time.Second` and the returned
difference `debounce - elapsed` wrap in two's complement, exactly as Go
int64 arithmetic does (`debounceSeconds` itself is a Go `int`, already an
int64 value). -/
def handleResource64 (debounceSeconds : Int) (outcome : RemOutcome)
    (st : TrackerState) (sha : String) (ready : Bool) (now : Int) :
    EvalResult :=
  if sha = "" then
    ⟨0, st, none⟩
  else if ready = false then
    if st.completedSHAs sha then
      ⟨0, st, none⟩
    else
      match st.pendingSHAs sha with
      | some t =>
        let elapsed := clamp64 (now - t)
        let debounce := wrap64 (debounceSeconds * timeSecond)
        if debounce ≤ elapsed then
          ⟨0,
           ⟨fun s => if s = sha then none else st.pendingSHAs s,
            fun s => if s = sha then true else st.completedSHAs s⟩,
           some (sha, outcome)⟩
        else
          ⟨wrap64 (debounce - elapsed), st, none⟩
      | none =>
        ⟨wrap64 (debounceSeconds * timeSecond),
         ⟨fun s => if s = sha then some now else st.pendingSHAs s,
          st.completedSHAs⟩,
         none⟩
  else
    ⟨0,
     ⟨fun s => if s = sha then none else st.pendingSHAs s,
      st.completedSHAs⟩,
     none⟩

/-- One evaluation call as delivered by the reconciliation loop, together
with the network outcome its (potential) remediation attempt would get. -/
structure EvalCall where
  sha : String
  ready : Bool
  now : Int
  outcome : RemOutcome

/-- Run a sequence of evaluation calls, collecting the SHAs for which the
remediation client (`createGitlabRevertMR`) was invoked, in order. -/
def runCalls (debounceSeconds : Int) (st : TrackerState) :
    List EvalCall → TrackerState × List String
  | [] => (st, [])
  | c :: cs =>
    let r := handleResource debounceSeconds c.outcome st c.sha c.ready c.now
    let rest := runCalls debounceSeconds r.state cs
    (rest.1, (r.reverted.map Prod.fst).toList ++ rest.2)

/-- Invariant I1: no identifier is simultaneously pending and completed. -/
def mutualExclusion (st : TrackerState) : Prop :=
  ∀ sha, st.completedSHAs sha = true → st.pendingSHAs sha = none

/-- The read-only GitLab configuration of the `RollbackController`
(`GitlabToken`, `GitlabProjectID`, `GitlabBaseURL`, and the revert-branch
name field, called `RevertBranchPre` here). -/
structure GitlabConfig where
  GitlabToken : String
  GitlabProjectID : String
  GitlabBaseURL : String
  RevertBranchPre : String

/-- The HTTP request built by `createGitlabRevertMR` in live mode. -/
structure HttpRequest where
  method : String
  url : String
  body : String
  privateToken : String
  contentType : String
  timeoutSeconds : Nat
deriving DecidableEq

/-- `createGitlabRevertMR` of `src/main.go` lines 83-113, modelled as the
request it issues; `none` means no outbound HTTP call is made.  `echoMode`
is `os.Getenv("REVERT_MODE") == "echo"` (checked before the request is
built).  `newRequestErr` is whether `http.NewRequest("POST", url, body)`
returns a non-nil error — decided by Go's net/url parser, external to this
repository (it fails, e.g., when the URL contains an ASCII control byte);
on that path (lines 92-96) the Go function logs the error and returns
without issuing any outbound call. -/
def createGitlabRevertMR (cfg : GitlabConfig) (echoMode newRequestErr : Bool)
    (badSHA : String) : Option HttpRequest :=
  let branch := cfg.RevertBranchPre ++ "-" ++ badSHA
  let url := cfg.GitlabBaseURL ++ "/api/v4/projects/" ++ cfg.GitlabProjectID
    ++ "/repository/commits/" ++ badSHA ++ "/revert"
  if echoMode then
    none
  else if newRequestErr then
    none
  else
    some ⟨"POST", url, "\x7b\"branch\":\"" ++ branch ++ "\"\x7d",
          cfg.GitlabToken, "application/json", 10⟩

/-- A concrete tracker state with one pending identifier, used by the
witnesses below. -/
def pendState : TrackerState :=
  ⟨fun s => if s = "xyz" then some 0 else none, fun _ => false⟩

/-! ### Branch lemmas for `handleResource` -/

theorem handleResource_empty (d : Int) (o : RemOutcome) (st : TrackerState)
    (ready : Bool) (now : Int) :
    handleResource d o st "" ready now = ⟨0, st, none⟩ := by
  simp [handleResource]

theorem handleResource_completed (d : Int) (o : RemOutcome)
    (st : TrackerState) (sha : String) (now : Int)
    (hc : st.completedSHAs sha = true) :
    handleResource d o st sha false now = ⟨0, st, none⟩ := by
  by_cases hs : sha = "" <;> simp [handleResource, hs, hc]

theorem handleResource_within (d : Int) (o : RemOutcome)
    (st : TrackerState) (sha : String) (now t0 : Int)
    (hs : sha ≠ "") (hc : st.completedSHAs sha = false)
    (hp : st.pendingSHAs sha = some t0)
    (hw : now - t0 < d * timeSecond) :
    handleResource d o st sha false now =
      ⟨d * timeSecond - (now - t0), st, none⟩ := by
  simp [handleResource, hs, hc, hp, not_le.mpr hw]

theorem handleResource_fire (d : Int) (o : RemOutcome)
    (st : TrackerState) (sha : String) (now t0 : Int)
    (hs : sha ≠ "") (hc : st.completedSHAs sha = false)
    (hp : st.pendingSHAs sha = some t0)
    (hw : d * timeSecond ≤ now - t0) :
    handleResource d o st sha false now =
      ⟨0,
       ⟨fun s => if s = sha then none else st.pendingSHAs s,
        fun s => if s = sha then true else st.completedSHAs s⟩,
       some (sha, o)⟩ := by
  simp [handleResource, hs, hc, hp, hw]

theorem handleResource_untracked (d : Int) (o : RemOutcome)
    (st : TrackerState) (sha : String) (now : Int)
    (hs : sha ≠ "") (hc : st.completedSHAs sha = false)
    (hp : st.pendingSHAs sha = none) :
    handleResource d o st sha false now =
      ⟨d * timeSecond,
       ⟨fun s => if s = sha then some now else st.pendingSHAs s,
        st.completedSHAs⟩,
       none⟩ := by
  simp [handleResource, hs, hc, hp]

theorem handleResource_ready (d : Int) (o : RemOutcome)
    (st : TrackerState) (sha : String) (now : Int)
    (hs : sha ≠ "") :
    handleResource d o st sha true now =
      ⟨0,
       ⟨fun s => if s = sha then none else st.pendingSHAs s,
        st.completedSHAs⟩,
       none⟩ := by
  simp [handleResource, hs]

/-! ### Structural lemmas used by the trace invariants -/

theorem completedSHAs_mono (d : Int) (o : RemOutcome) (st : TrackerState)
    (sha : String) (ready : Bool) (now : Int) (x : String)
    (h : st.completedSHAs x = true) :
    (handleResource d o st sha ready now).state.completedSHAs x = true := by
  by_cases hs : sha = ""
  · rw [hs, handleResource_empty]; exact h
  · cases ready with
    | true => rw [handleResource_ready d o st sha now hs]; exact h
    | false =>
      by_cases hc : st.completedSHAs sha = true
      · rw [handleResource_completed d o st sha now hc]; exact h
      · have hc' : st.completedSHAs sha = false := by simpa using hc
        cases hp : st.pendingSHAs sha with
        | none =>
          rw [handleResource_untracked d o st sha now hs hc' hp]; exact h
        | some t0 =>
          by_cases hw : d * timeSecond ≤ now - t0
          · rw [handleResource_fire d o st sha now t0 hs hc' hp hw]
            by_cases hx : x = sha <;> simp [hx, h]
          · rw [handleResource_within d o st sha now t0 hs hc' hp
              (not_le.mp hw)]
            exact h

theorem reverted_spec (d : Int) (o : RemOutcome) (st : TrackerState)
    (sha : String) (ready : Bool) (now : Int) (p : String × RemOutcome)
    (h : (handleResource d o st sha ready now).reverted = some p) :
    p.1 = sha ∧ st.completedSHAs sha = false ∧
      (handleResource d o st sha ready now).state.completedSHAs sha = true := by
  by_cases hs : sha = ""
  · rw [hs, handleResource_empty] at h; exact absurd h (by simp)
  · cases ready with
    | true =>
      rw [handleResource_ready d o st sha now hs] at h
      exact absurd h (by simp)
    | false =>
      by_cases hc : st.completedSHAs sha = true
      · rw [handleResource_completed d o st sha now hc] at h
        exact absurd h (by simp)
      · have hc' : st.completedSHAs sha = false := by simpa using hc
        cases hp : st.pendingSHAs sha with
        | none =>
          rw [handleResource_untracked d o st sha now hs hc' hp] at h
          exact absurd h (by simp)
        | some t0 =>
          by_cases hw : d * timeSecond ≤ now - t0
          · rw [handleResource_fire d o st sha now t0 hs hc' hp hw] at h ⊢
            simp only [Option.some.injEq] at h
            subst h
            exact ⟨rfl, hc', by simp⟩
          · rw [handleResource_within d o st sha now t0 hs hc' hp
              (not_le.mp hw)] at h
            exact absurd h (by simp)

theorem runCalls_completed_count (d : Int) (sha : String)
    (cs : List EvalCall) :
    ∀ st : TrackerState, st.completedSHAs sha = true →
      ((runCalls d st cs).2).count sha = 0 := by
  induction cs with
  | nil => intro st h; simp [runCalls]
  | cons c cs ih =>
    intro st h
    simp only [runCalls, List.count_append]
    rw [ih _ (completedSHAs_mono d c.outcome st c.sha c.ready c.now sha h)]
    cases hr : (handleResource d c.outcome st c.sha c.ready c.now).reverted with
    | none => simp [hr]
    | some p =>
      have hspec := reverted_spec d c.outcome st c.sha c.ready c.now p hr
      have hne : p.1 ≠ sha := by
        intro he
        have hsc : sha = c.sha := by rw [← he, hspec.1]
        rw [hsc, hspec.2.1] at h
        simp at h
      simp [hr, List.count_cons, hne]

theorem runCalls_count_le_one (d : Int) (sha : String) (cs : List EvalCall) :
    ∀ st : TrackerState, ((runCalls d st cs).2).count sha ≤ 1 := by
  induction cs with
  | nil => intro st; simp [runCalls]
  | cons c cs ih =>
    intro st
    simp only [runCalls, List.count_append]
    cases hr : (handleResource d c.outcome st c.sha c.ready c.now).reverted with
    | none => simpa [hr] using ih _
    | some p =>
      have hspec := reverted_spec d c.outcome st c.sha c.ready c.now p hr
      by_cases hps : p.1 = sha
      · have hsc : sha = c.sha := by rw [← hps, hspec.1]
        have hcompl :
            (handleResource d c.outcome st c.sha c.ready c.now).state.completedSHAs
              sha = true := by
          rw [hsc]; exact hspec.2.2
        rw [runCalls_completed_count d sha cs _ hcompl]
        simp [hr, List.count_cons, hps]
      · have := ih (handleResource d c.outcome st c.sha c.ready c.now).state
        simpa [hr, List.count_cons, hps] using this

/-! ### Claims -/

/-- C1: across any sequence of evaluation calls within one process lifetime
(starting from the state built by `NewRollbackController`), the remediation
client is invoked at most once per revision identifier; moreover once an
identifier is in the completed set, a failing evaluation for it returns
delay 0, leaves the state unchanged, and does not invoke the remediation
client. -/
theorem c1_remediation_at_most_once :
    (∀ (d : Int) (cs : List EvalCall) (sha : String),
      ((runCalls d initState cs).2).count sha ≤ 1) ∧
    (∀ (d : Int) (o : RemOutcome) (st : TrackerState) (sha : String)
        (now : Int), st.completedSHAs sha = true →
      handleResource d o st sha false now = ⟨0, st, none⟩) :=
  ⟨fun d cs sha => runCalls_count_le_one d sha cs initState,
   fun d o st sha now hc => handleResource_completed d o st sha now hc⟩

theorem c1_witness :
    (TrackerState.mk (fun _ => none) (fun s => s == "abc")).completedSHAs
        "abc" = true ∧
    handleResource 300 RemOutcome.transportError
        (TrackerState.mk (fun _ => none) (fun s => s == "abc")) "abc" false 7 =
      ⟨0, TrackerState.mk (fun _ => none) (fun s => s == "abc"), none⟩ :=
  ⟨by decide,
   c1_remediation_at_most_once.2 300 RemOutcome.transportError
     (TrackerState.mk (fun _ => none) (fun s => s == "abc")) "abc" 7
     (by decide)⟩

/-- C3: the mutual-exclusion invariant I1 (no identifier both pending and
completed) holds in the initial state and is preserved by every evaluation
call, hence holds in every reachable tracker state. -/
theorem c3_mutual_exclusion :
    mutualExclusion initState ∧
    ∀ (d : Int) (o : RemOutcome) (st : TrackerState) (sha : String)
      (ready : Bool) (now : Int), mutualExclusion st →
      mutualExclusion (handleResource d o st sha ready now).state := by
  constructor
  · intro sha h
    simp [initState] at h
  · intro d o st sha ready now hinv
    by_cases hs : sha = ""
    · rw [hs, handleResource_empty]; exact hinv
    · cases ready with
      | true =>
        rw [handleResource_ready d o st sha now hs]
        intro x hx
        by_cases hxs : x = sha <;> simp [hxs, hinv x hx]
      | false =>
        by_cases hc : st.completedSHAs sha = true
        · rw [handleResource_completed d o st sha now hc]; exact hinv
        · have hc' : st.completedSHAs sha = false := by simpa using hc
          cases hp : st.pendingSHAs sha with
          | none =>
            rw [handleResource_untracked d o st sha now hs hc' hp]
            intro x hx
            by_cases hxs : x = sha
            · subst hxs; rw [hx] at hc'; cases hc'
            · simp [hxs, hinv x hx]
          | some t0 =>
            by_cases hw : d * timeSecond ≤ now - t0
            · rw [handleResource_fire d o st sha now t0 hs hc' hp hw]
              intro x hx
              by_cases hxs : x = sha
              · simp [hxs]
              · simp only [hxs, if_false] at hx ⊢
                simp [hxs, hinv x hx]
            · rw [handleResource_within d o st sha now t0 hs hc' hp
                (not_le.mp hw)]
              exact hinv

theorem c3_witness :
    mutualExclusion initState ∧
    mutualExclusion
      (handleResource 300 RemOutcome.echoed initState "abc" false 0).state :=
  ⟨c3_mutual_exclusion.1,
   c3_mutual_exclusion.2 300 RemOutcome.echoed initState "abc" false 0
     c3_mutual_exclusion.1⟩

/-- C7: an evaluation call with an empty identifier is a no-op: delay 0, the
tracker state (both maps) is unchanged, and remediation is not invoked, for
every readiness flag and prior state. -/
theorem c7_empty_identifier_noop (d : Int) (o : RemOutcome)
    (st : TrackerState) (ready : Bool) (now : Int) :
    handleResource d o st "" ready now = ⟨0, st, none⟩ :=
  handleResource_empty d o st ready now

/-- C8 counterexample: in live mode with a base URL carrying an ASCII
control byte (for which Go's `http.NewRequest` fails), no HTTP request is
issued at all, refuting the claim's unconditional single POST in live
mode. -/
theorem c8_counterexample :
    createGitlabRevertMR ⟨"token", "42", "https://git\x00lab", "revert"⟩
      false true "abc123" = none :=
  rfl

/-- C8 (amended): in dry-run (echo) mode `createGitlabRevertMR` issues no
HTTP request for any identifier, whatever request construction would do;
in live mode, whenever `http.NewRequest` succeeds, it builds exactly one
POST to `{baseURL}/api/v4/projects/{projectID}/repository/commits/{sha}/revert`
whose JSON body names the branch `{pre}-{sha}` (hyphen-joined), carrying
the configured token in the PRIVATE-TOKEN header and a 10-second timeout;
and when `http.NewRequest` fails, no outbound call is made. -/
theorem c8_revert_request_shape (cfg : GitlabConfig) (newRequestErr : Bool)
    (sha : String) :
    createGitlabRevertMR cfg true newRequestErr sha = none ∧
    createGitlabRevertMR cfg false false sha =
      some ⟨"POST",
            cfg.GitlabBaseURL ++ "/api/v4/projects/" ++ cfg.GitlabProjectID
              ++ "/repository/commits/" ++ sha ++ "/revert",
            "\x7b\"branch\":\"" ++ (cfg.RevertBranchPre ++ "-" ++ sha)
              ++ "\"\x7d",
            cfg.GitlabToken, "application/json", 10⟩ ∧
    createGitlabRevertMR cfg false true sha = none :=
  ⟨rfl, rfl, rfl⟩

/-- C2: for every window, three failing evaluations of one identifier at
times 0, W-1 and W+1 (W the window in nanoseconds) invoke remediation
exactly once, at the third call; the first returns the full window, the
second the remaining delay, the third 0. -/
theorem c2_debounce_three_calls (d : Int) (o1 o2 o3 : RemOutcome)
    (st : TrackerState) (sha : String) (hs : sha ≠ "")
    (hp : st.pendingSHAs sha = none) (hc : st.completedSHAs sha = false) :
    (handleResource d o1 st sha false 0).requeueAfter = d * timeSecond ∧
    (handleResource d o1 st sha false 0).reverted = none ∧
    (handleResource d o2 (handleResource d o1 st sha false 0).state sha false
        (d * timeSecond - 1)).requeueAfter =
      d * timeSecond - (d * timeSecond - 1 - 0) ∧
    (handleResource d o2 (handleResource d o1 st sha false 0).state sha false
        (d * timeSecond - 1)).reverted = none ∧
    (handleResource d o3
        (handleResource d o2 (handleResource d o1 st sha false 0).state sha
          false (d * timeSecond - 1)).state sha false
        (d * timeSecond + 1)).requeueAfter = 0 ∧
    (handleResource d o3
        (handleResource d o2 (handleResource d o1 st sha false 0).state sha
          false (d * timeSecond - 1)).state sha false
        (d * timeSecond + 1)).reverted = some (sha, o3) := by
  have e1 := handleResource_untracked d o1 st sha 0 hs hc hp
  rw [e1]
  have hp1 :
      (⟨fun s => if s = sha then some 0 else st.pendingSHAs s,
        st.completedSHAs⟩ : TrackerState).pendingSHAs sha = some 0 := by
    simp
  have e2 := handleResource_within d o2
    ⟨fun s => if s = sha then some 0 else st.pendingSHAs s, st.completedSHAs⟩
    sha (d * timeSecond - 1) 0 hs hc hp1 (by linarith)
  rw [e2]
  have e3 := handleResource_fire d o3
    ⟨fun s => if s = sha then some 0 else st.pendingSHAs s, st.completedSHAs⟩
    sha (d * timeSecond + 1) 0 hs hc hp1 (by linarith)
  rw [e3]
  exact ⟨rfl, rfl, rfl, rfl, rfl, rfl⟩

theorem c2_witness :
    ("abc123" : String) ≠ "" ∧
    ((handleResource 15 RemOutcome.echoed initState "abc123" false
        0).requeueAfter = 15 * timeSecond ∧
     (handleResource 15 RemOutcome.echoed initState "abc123" false
        0).reverted = none ∧
     (handleResource 15 RemOutcome.echoed
        (handleResource 15 RemOutcome.echoed initState "abc123" false 0).state
        "abc123" false (15 * timeSecond - 1)).requeueAfter =
       15 * timeSecond - (15 * timeSecond - 1 - 0) ∧
     (handleResource 15 RemOutcome.echoed
        (handleResource 15 RemOutcome.echoed initState "abc123" false 0).state
        "abc123" false (15 * timeSecond - 1)).reverted = none ∧
     (handleResource 15 RemOutcome.echoed
        (handleResource 15 RemOutcome.echoed
          (handleResource 15 RemOutcome.echoed initState "abc123" false
            0).state "abc123" false (15 * timeSecond - 1)).state
        "abc123" false (15 * timeSecond + 1)).requeueAfter = 0 ∧
     (handleResource 15 RemOutcome.echoed
        (handleResource 15 RemOutcome.echoed
          (handleResource 15 RemOutcome.echoed initState "abc123" false
            0).state "abc123" false (15 * timeSecond - 1)).state
        "abc123" false (15 * timeSecond + 1)).reverted =
       some ("abc123", RemOutcome.echoed)) :=
  ⟨by decide,
   c2_debounce_three_calls 15 RemOutcome.echoed RemOutcome.echoed
     RemOutcome.echoed initState "abc123" (by decide) rfl rfl⟩

/-- C4: when remediation fires for an identifier, the identifier moves to
the completed set for every possible outcome of the remediation call
(request-construction error, transport error, any HTTP status), and from
the resulting state a later failing evaluation never invokes the
remediation client again. -/
theorem c4_completed_regardless_of_outcome (d : Int) (st : TrackerState)
    (sha : String) (now t0 : Int) (hs : sha ≠ "")
    (hc : st.completedSHAs sha = false) (hp : st.pendingSHAs sha = some t0)
    (hw : d * timeSecond ≤ now - t0) :
    ∀ o : RemOutcome,
      (handleResource d o st sha false now).reverted = some (sha, o) ∧
      (handleResource d o st sha false now).state.completedSHAs sha = true ∧
      (handleResource d o st sha false now).state.pendingSHAs sha = none ∧
      ∀ (o' : RemOutcome) (now' : Int),
        (handleResource d o' (handleResource d o st sha false now).state sha
          false now').reverted = none := by
  intro o
  rw [handleResource_fire d o st sha now t0 hs hc hp hw]
  refine ⟨rfl, by simp, by simp, ?_⟩
  intro o' now'
  rw [handleResource_completed d o' _ sha now' (by simp)]

theorem c4_witness :
    pendState.pendingSHAs "xyz" = some 0 ∧
    (handleResource 1 RemOutcome.transportError pendState "xyz" false
        timeSecond).state.completedSHAs "xyz" = true ∧
    (handleResource 1 RemOutcome.transportError pendState "xyz" false
        timeSecond).reverted = some ("xyz", RemOutcome.transportError) :=
  ⟨by decide,
   (c4_completed_regardless_of_outcome 1 pendState "xyz" timeSecond 0
      (by decide) rfl (by decide) (by decide)
      RemOutcome.transportError).2.1,
   (c4_completed_regardless_of_outcome 1 pendState "xyz" timeSecond 0
      (by decide) rfl (by decide) (by decide)
      RemOutcome.transportError).1⟩

/-- C5: for an identifier pending within the window, a healthy evaluation
removes it from the pending map and returns delay 0 without remediation;
a subsequent failing evaluation re-inserts it with first-seen time equal to
that later evaluation's time, returning the full window. -/
theorem c5_recovery_cancels (d : Int) (o1 : RemOutcome) (st : TrackerState)
    (sha : String) (now t0 : Int) (hs : sha ≠ "")
    (hc : st.completedSHAs sha = false) (hp : st.pendingSHAs sha = some t0)
    (hw : now - t0 < d * timeSecond) :
    (handleResource d o1 st sha true now).requeueAfter = 0 ∧
    (handleResource d o1 st sha true now).reverted = none ∧
    (handleResource d o1 st sha true now).state.pendingSHAs sha = none ∧
    ∀ (o2 : RemOutcome) (now2 : Int),
      (handleResource d o2 (handleResource d o1 st sha true now).state sha
          false now2).state.pendingSHAs sha = some now2 ∧
      (handleResource d o2 (handleResource d o1 st sha true now).state sha
          false now2).requeueAfter = d * timeSecond ∧
      (handleResource d o2 (handleResource d o1 st sha true now).state sha
          false now2).reverted = none := by
  rw [handleResource_ready d o1 st sha now hs]
  refine ⟨rfl, rfl, by simp, ?_⟩
  intro o2 now2
  dsimp only
  rw [handleResource_untracked d o2
    ⟨fun s => if s = sha then none else st.pendingSHAs s, st.completedSHAs⟩
    sha now2 hs hc (by simp)]
  exact ⟨by simp, rfl, rfl⟩

theorem c5_witness :
    pendState.pendingSHAs "xyz" = some 0 ∧
    (handleResource 300 RemOutcome.echoed pendState "xyz" true
        5).state.pendingSHAs "xyz" = none ∧
    (handleResource 300 RemOutcome.echoed
        (handleResource 300 RemOutcome.echoed pendState "xyz" true 5).state
        "xyz" false 6).state.pendingSHAs "xyz" = some 6 :=
  ⟨by decide,
   (c5_recovery_cancels 300 RemOutcome.echoed pendState "xyz" 5 0 (by decide)
      rfl (by decide) (by decide)).2.2.1,
   ((c5_recovery_cancels 300 RemOutcome.echoed pendState "xyz" 5 0 (by decide)
      rfl (by decide) (by decide)).2.2.2 RemOutcome.echoed 6).1⟩

/-- C6: a failing evaluation of an identifier pending with elapsed time
strictly below the window returns window minus elapsed and leaves the
stored first-seen timestamp unchanged; in general, any evaluation call
after which the identifier is still pending leaves its first-seen
timestamp exactly as it was (it is never reset while pending). -/
theorem c6_first_seen_unchanged (d : Int) (o : RemOutcome)
    (st : TrackerState) (sha : String) (now t0 : Int) (hs : sha ≠ "")
    (hc : st.completedSHAs sha = false) (hp : st.pendingSHAs sha = some t0)
    (hw : now - t0 < d * timeSecond) :
    (handleResource d o st sha false now).requeueAfter =
      d * timeSecond - (now - t0) ∧
    (handleResource d o st sha false now).state.pendingSHAs sha = some t0 ∧
    ∀ (st' : TrackerState) (o' : RemOutcome) (ready' : Bool)
      (now' t1 t2 : Int), st'.pendingSHAs sha = some t1 →
      (handleResource d o' st' sha ready' now').state.pendingSHAs sha =
        some t2 → t2 = t1 := by
  rw [handleResource_within d o st sha now t0 hs hc hp hw]
  refine ⟨rfl, hp, ?_⟩
  intro st' o' ready' now' t1 t2 hp1 hp2
  cases ready' with
  | true =>
    rw [handleResource_ready d o' st' sha now' hs] at hp2
    simp at hp2
  | false =>
    by_cases hc1 : st'.completedSHAs sha = true
    · rw [handleResource_completed d o' st' sha now' hc1] at hp2
      rw [hp1] at hp2
      exact (Option.some.injEq t1 t2 ▸ hp2).symm
    · have hc1' : st'.completedSHAs sha = false := by simpa using hc1
      by_cases hw1 : d * timeSecond ≤ now' - t1
      · rw [handleResource_fire d o' st' sha now' t1 hs hc1' hp1 hw1] at hp2
        simp at hp2
      · rw [handleResource_within d o' st' sha now' t1 hs hc1' hp1
          (not_le.mp hw1)] at hp2
        rw [hp1] at hp2
        exact (Option.some.injEq t1 t2 ▸ hp2).symm

theorem c6_witness :
    (5 - 0 : Int) < 300 * timeSecond ∧
    (handleResource 300 RemOutcome.echoed pendState "xyz" false
        5).requeueAfter = 300 * timeSecond - (5 - 0) ∧
    (handleResource 300 RemOutcome.echoed pendState "xyz" false
        5).state.pendingSHAs "xyz" = some 0 :=
  ⟨by decide,
   (c6_first_seen_unchanged 300 RemOutcome.echoed pendState "xyz" 5 0
      (by decide) rfl (by decide) (by decide)).1,
   (c6_first_seen_unchanged 300 RemOutcome.echoed pendState "xyz" 5 0
      (by decide) rfl (by decide) (by decide)).2.1⟩

theorem wrap64_eq_self (n : Int) (h1 : -(2 ^ 63) ≤ n) (h2 : n < 2 ^ 63) :
    wrap64 n = n := by
  unfold wrap64
  have h3 : (0 : Int) ≤ n + 2 ^ 63 := by linarith
  have h4 : n + 2 ^ 63 < 2 ^ 64 := by
    have he : (2 : Int) ^ 64 = 2 ^ 63 + 2 ^ 63 := by norm_num
    linarith
  rw [Int.emod_eq_of_lt h3 h4]
  ring

theorem clamp64_eq_self (n : Int) (h1 : -(2 ^ 63) ≤ n) (h2 : n < 2 ^ 63) :
    clamp64 n = n := by
  unfold clamp64
  have h3 : n ≤ 2 ^ 63 - 1 := by
    have := Int.lt_iff_add_one_le.mp h2
    linarith
  rw [min_eq_left h3, max_eq_right h1]

theorem handleResource64_empty (d : Int) (o : RemOutcome)
    (st : TrackerState) (ready : Bool) (now : Int) :
    handleResource64 d o st "" ready now = ⟨0, st, none⟩ := by
  simp [handleResource64]

theorem handleResource64_completed (d : Int) (o : RemOutcome)
    (st : TrackerState) (sha : String) (now : Int)
    (hc : st.completedSHAs sha = true) :
    handleResource64 d o st sha false now = ⟨0, st, none⟩ := by
  by_cases hs : sha = "" <;> simp [handleResource64, hs, hc]

theorem handleResource64_within (d : Int) (o : RemOutcome)
    (st : TrackerState) (sha : String) (now t0 : Int)
    (hs : sha ≠ "") (hc : st.completedSHAs sha = false)
    (hp : st.pendingSHAs sha = some t0)
    (hw : clamp64 (now - t0) < wrap64 (d * timeSecond)) :
    handleResource64 d o st sha false now =
      ⟨wrap64 (wrap64 (d * timeSecond) - clamp64 (now - t0)), st, none⟩ := by
  simp [handleResource64, hs, hc, hp, not_le.mpr hw]

theorem handleResource64_fire (d : Int) (o : RemOutcome)
    (st : TrackerState) (sha : String) (now t0 : Int)
    (hs : sha ≠ "") (hc : st.completedSHAs sha = false)
    (hp : st.pendingSHAs sha = some t0)
    (hw : wrap64 (d * timeSecond) ≤ clamp64 (now - t0)) :
    handleResource64 d o st sha false now =
      ⟨0,
       ⟨fun s => if s = sha then none else st.pendingSHAs s,
        fun s => if s = sha then true else st.completedSHAs s⟩,
       some (sha, o)⟩ := by
  simp [handleResource64, hs, hc, hp, hw]

theorem handleResource64_untracked (d : Int) (o : RemOutcome)
    (st : TrackerState) (sha : String) (now : Int)
    (hs : sha ≠ "") (hc : st.completedSHAs sha = false)
    (hp : st.pendingSHAs sha = none) :
    handleResource64 d o st sha false now =
      ⟨wrap64 (d * timeSecond),
       ⟨fun s => if s = sha then some now else st.pendingSHAs s,
        st.completedSHAs⟩,
       none⟩ := by
  simp [handleResource64, hs, hc, hp]

theorem handleResource64_ready (d : Int) (o : RemOutcome)
    (st : TrackerState) (sha : String) (now : Int)
    (hs : sha ≠ "") :
    handleResource64 d o st sha true now =
      ⟨0,
       ⟨fun s => if s = sha then none else st.pendingSHAs s,
        st.completedSHAs⟩,
       none⟩ := by
  simp [handleResource64, hs]

/-- C10 counterexample: at configured debounce 10^10 seconds (non-negative,
inside the claim's hypothesis space), `time.Duration(DebounceSeconds) *
time.Second` wraps in int64 and the first failing evaluation of a fresh
identifier returns a negative delay. -/
theorem c10_counterexample :
    (0 : Int) ≤ 10000000000 ∧
    (handleResource64 10000000000 RemOutcome.echoed initState "abc" false
        0).requeueAfter = -8446744073709551616 :=
  ⟨by decide, by decide⟩

/-- C10 (amended): if the configured debounce seconds are non-negative, the
window `DebounceSeconds * 10^9` ns fits in int64 (below 2^63), and every
pending timestamp for the identifier is at most the current time with an
elapsed time below 2^63 ns, then the returned delay d satisfies
0 ≤ d ≤ window — stated over the int64-faithful `handleResource64`. -/
theorem c10_delay_bounds_wrap (d : Int) (o : RemOutcome) (st : TrackerState)
    (sha : String) (ready : Bool) (now : Int) (hd : 0 ≤ d)
    (hdw : d * timeSecond < 2 ^ 63)
    (hmono : ∀ t, st.pendingSHAs sha = some t →
      t ≤ now ∧ now - t < 2 ^ 63) :
    0 ≤ (handleResource64 d o st sha ready now).requeueAfter ∧
    (handleResource64 d o st sha ready now).requeueAfter ≤ d * timeSecond := by
  have hts : (0 : Int) ≤ timeSecond := by norm_num [timeSecond]
  have hW : 0 ≤ d * timeSecond := mul_nonneg hd hts
  have hwrapW : wrap64 (d * timeSecond) = d * timeSecond := by
    apply wrap64_eq_self
    · have : (0 : Int) ≤ 2 ^ 63 := by norm_num
      linarith
    · exact hdw
  by_cases hs : sha = ""
  · rw [hs, handleResource64_empty]
    exact ⟨le_refl 0, hW⟩
  · cases ready with
    | true =>
      rw [handleResource64_ready d o st sha now hs]
      exact ⟨le_refl 0, hW⟩
    | false =>
      by_cases hc : st.completedSHAs sha = true
      · rw [handleResource64_completed d o st sha now hc]
        exact ⟨le_refl 0, hW⟩
      · have hc' : st.completedSHAs sha = false := by simpa using hc
        cases hp : st.pendingSHAs sha with
        | none =>
          rw [handleResource64_untracked d o st sha now hs hc' hp]
          dsimp only
          rw [hwrapW]
          exact ⟨hW, le_refl _⟩
        | some t0 =>
          have ht0 := hmono t0 hp
          have hclamp : clamp64 (now - t0) = now - t0 := by
            apply clamp64_eq_self
            · have : (0 : Int) ≤ 2 ^ 63 := by norm_num
              have := ht0.1
              linarith
            · exact ht0.2
          by_cases hw : wrap64 (d * timeSecond) ≤ clamp64 (now - t0)
          · rw [handleResource64_fire d o st sha now t0 hs hc' hp hw]
            exact ⟨le_refl 0, hW⟩
          · have hw' := not_le.mp hw
            rw [handleResource64_within d o st sha now t0 hs hc' hp hw']
            dsimp only
            rw [hwrapW, hclamp] at hw' ⊢
            have he0 : (0 : Int) ≤ now - t0 := by
              have := ht0.1
              linarith
            have hsmall : wrap64 (d * timeSecond - (now - t0)) =
                d * timeSecond - (now - t0) := by
              apply wrap64_eq_self
              · have : (0 : Int) ≤ 2 ^ 63 := by norm_num
                linarith
              · linarith
            rw [hsmall]
            exact ⟨by linarith, by linarith⟩

theorem c10_wrap_witness :
    (0 : Int) ≤ 300 ∧ 300 * timeSecond < 2 ^ 63 ∧
    (0 ≤ (handleResource64 300 RemOutcome.echoed initState "abc" false
        5).requeueAfter ∧
     (handleResource64 300 RemOutcome.echoed initState "abc" false
        5).requeueAfter ≤ 300 * timeSecond) :=
  ⟨by decide, by decide,
   c10_delay_bounds_wrap 300 RemOutcome.echoed initState "abc" false 5
     (by decide) (by decide)
     (fun t h => by simp [initState] at h)⟩
